import Mathlib

/-!
Shallow embedding of the VeriChain ai_canister core (chunked model upload,
streaming assembly, model loading, prediction post-processing), translated
from the Rust sources under `src/src/ai_canister/src/`.

Conventions:
* `Vec<u8>` is modelled as `List Nat` (byte values), `u32`/`u64`/`usize` as
  `Nat` (the claims under consideration never exercise wrap-around: chunk
  counts and batch sizes stay far below `2^32`).
* `f64` values that only flow through comparisons, `max`/`min` and division
  are modelled as `ℚ` (these operations are exact on the rationals that
  appear; no rounding is involved in any claim-relevant comparison).
* `HashMap<u32, _>` and `StableBTreeMap<u32, _>` are modelled as association
  lists with insert-or-overwrite (`alSet`) and lookup (`alLookup`);
  only keyed access is ever performed by the source.
* Fallible Rust functions returning `Result<T, String>` on `&mut self`
  become functions returning the updated state paired with
  `Except String T`.
* The SHA-256 computation (the external `sha2` crate) and the
  floating-point ONNX weight extraction (`parse_onnx_model`) are taken as
  parameters; every theorem below holds for all instantiations, in
  particular for the source ones.
-/

deriving instance DecidableEq for Except

namespace VeriChain

/-- Lookup in an association list keyed by `Nat`
(models `HashMap::get` / `StableBTreeMap::get`). -/
def alLookup {α : Type} : List (Nat × α) → Nat → Option α
  | [], _ => none
  | (k, v) :: l, k' => if k = k' then some v else alLookup l k'

/-- Embeds `HashMap::contains_key`. -/
def alContains {α : Type} (l : List (Nat × α)) (k : Nat) : Bool :=
  (alLookup l k).isSome

/-- Insert-or-overwrite under a key
(models `HashMap::insert` / `StableBTreeMap::insert`). -/
def alSet {α : Type} : List (Nat × α) → Nat → α → List (Nat × α)
  | [], k, v => [(k, v)]
  | (k', v') :: l, k, v =>
    if k' = k then (k, v) :: l else (k', v') :: alSet l k v

/-- Insertion step of a stable ascending sort on `Nat`. -/
def insertSorted (x : Nat) : List Nat → List Nat
  | [] => [x]
  | y :: l => if x ≤ y then x :: y :: l else y :: insertSorted x l

/-- Ascending sort on `Nat` lists (models `Vec::<u32>::sort`). -/
def sortNat : List Nat → List Nat
  | [] => []
  | x :: l => insertSorted x (sortNat l)

/-! ## `storage/model_storage.rs` -/

/-- Embeds `types/model.rs` `ModelChunk`: one uploaded fragment. -/
structure ModelChunk where
  id : Nat
  data : List Nat
  hash : String
deriving DecidableEq

/-- Embeds `types/model.rs` `ModelMetadata` (the variant used by `ModelStorage`). -/
structure ModelMetadata where
  original_file : String
  original_size : Nat
  total_chunks : Nat
  chunk_size_mb : ℚ
  version : String
deriving DecidableEq

/-- Embeds `storage/model_storage.rs` `ModelStorage`. -/
structure ModelStorage where
  chunks : List (Nat × ModelChunk)
  metadata : Option ModelMetadata
  model_data : Option (List Nat)
  upload_complete : Bool
  initialization_started : Bool
  is_initialized : Bool
  total_chunks : Nat
  uploaded_chunks : Nat
  processed_chunks : Nat
deriving DecidableEq

/-- Embeds `ModelStorage::new` (the `Default` state). -/
def ModelStorage.new : ModelStorage :=
  ⟨[], none, none, false, false, false, 0, 0, 0⟩

/-- Embeds `ModelStorage::store_chunk`. Rejects an already-present ordinal,
otherwise inserts and recomputes the upload counters. -/
def ModelStorage.store_chunk (s : ModelStorage) (chunk : ModelChunk) :
    ModelStorage × Except String Unit :=
  if alContains s.chunks chunk.id then
    (s, .error ("Chunk " ++ toString chunk.id ++ " already exists"))
  else
    let chunks := alSet s.chunks chunk.id chunk
    let uploaded := chunks.length
    let s1 := { s with chunks := chunks, uploaded_chunks := uploaded }
    match s1.metadata with
    | some metadata =>
      ({ s1 with upload_complete := decide (uploaded ≥ metadata.total_chunks) }, .ok ())
    | none => (s1, .ok ())

/-- Embeds `ModelStorage::store_metadata`. -/
def ModelStorage.store_metadata (s : ModelStorage) (metadata : ModelMetadata) :
    ModelStorage × Except String Unit :=
  let s1 := { s with total_chunks := metadata.total_chunks, metadata := some metadata }
  ({ s1 with upload_complete := decide (s1.uploaded_chunks ≥ s1.total_chunks) }, .ok ())

/-- Embeds `ModelStorage::is_upload_complete`. -/
def ModelStorage.is_upload_complete (s : ModelStorage) : Bool :=
  s.upload_complete && decide (s.uploaded_chunks = s.total_chunks)

/-- Embeds `ModelStorage::get_missing_chunks`. -/
def ModelStorage.get_missing_chunks (s : ModelStorage) : List Nat :=
  (List.range s.total_chunks).filter (fun i => ! alContains s.chunks i)

/-- Embeds `ModelStorage::start_initialization`. -/
def ModelStorage.start_initialization (s : ModelStorage) :
    ModelStorage × Except String Unit :=
  if ¬ s.is_upload_complete then
    (s, .error "Cannot start initialization: upload not complete")
  else if s.initialization_started then
    (s, .error "Initialization already started")
  else
    ({ s with initialization_started := true, processed_chunks := 0 }, .ok ())

/-- The `for chunk_id in start_chunk..end_chunk` loop body of
`ModelStorage::process_chunks_batch`: walks the requested ordinals,
appending each present chunk and counting it; stops at the first missing
ordinal with the source error message.  Returns the accumulated buffer,
the updated processed counter, and the error if any. -/
def msLoop (chunks : List (Nat × ModelChunk)) :
    List Nat → List Nat → Nat → List Nat × Nat × Option String
  | [], buf, processed => (buf, processed, none)
  | id :: ids, buf, processed =>
    match alLookup chunks id with
    | some chunk => msLoop chunks ids (buf ++ chunk.data) (processed + 1)
    | none => (buf, processed, some ("Missing chunk " ++ toString id ++ " during initialization"))

/-- Embeds `ModelStorage::process_chunks_batch`.  Note two source behaviours the
embedding preserves: `self.model_data.take()` leaves `None` behind, and it
is only restored on the success path; `self.processed_chunks` is
incremented inside the loop, so it advances past the present prefix even
when the batch then fails on a missing chunk. -/
def ModelStorage.process_chunks_batch (s : ModelStorage) (batch_size : Nat) :
    ModelStorage × Except String Nat :=
  if ¬ s.initialization_started then (s, .error "Initialization not started")
  else if s.is_initialized then (s, .error "Model already initialized")
  else
    let start_chunk := s.processed_chunks
    let end_chunk := min (start_chunk + batch_size) s.total_chunks
    let model_data0 := s.model_data.getD []
    match msLoop s.chunks (List.range' start_chunk (end_chunk - start_chunk)) model_data0 start_chunk with
    | (buf, processed, none) =>
      let s1 := { s with model_data := some buf, processed_chunks := processed }
      if s1.processed_chunks ≥ s1.total_chunks then
        ({ s1 with is_initialized := true }, .ok (end_chunk - start_chunk))
      else (s1, .ok (end_chunk - start_chunk))
    | (_, processed, some e) =>
      ({ s with model_data := none, processed_chunks := processed }, .error e)

/-- Embeds `ModelStorage::get_model_data`. -/
def ModelStorage.get_model_data (s : ModelStorage) : Option (List Nat) :=
  s.model_data

/-- Embeds `ModelStorage::get_initialization_progress`. -/
def ModelStorage.get_initialization_progress (s : ModelStorage) : Nat × Nat :=
  (s.processed_chunks, s.total_chunks)

/-- Data of the chunk stored under ordinal `i` in a chunk map
(empty if absent). -/
def chunkDataOf (chunks : List (Nat × ModelChunk)) (i : Nat) : List Nat :=
  ((alLookup chunks i).getD ⟨0, [], ""⟩).data

/-- Data of the chunk stored under ordinal `i` (empty if absent);
used to express assembled artifacts. -/
def msChunkDataAt (s : ModelStorage) (i : Nat) : List Nat :=
  chunkDataOf s.chunks i

/-- The concatenation of the stored fragment bytes in strictly increasing
ordinal order `0, 1, …, total_chunks - 1`. -/
def ModelStorage.assembledArtifact (s : ModelStorage) : List Nat :=
  ((List.range' 0 s.total_chunks).map (msChunkDataAt s)).flatten

/-- Repeatedly call `process_chunks_batch` with the given batch sizes,
keeping the state of each call whether it succeeds or fails
(callers in `handlers/model_management.rs` keep calling until done). -/
def runBatches : List Nat → ModelStorage → ModelStorage
  | [], s => s
  | b :: bs, s => runBatches bs (s.process_chunks_batch b).1

/-! ## `state.rs`: the stable-memory globals -/

/-- Embeds `state.rs` `ModelChunk` (the stable-memory chunk record). -/
structure StateModelChunk where
  chunk_id : Nat
  data : List Nat
  hash : String
deriving DecidableEq

/-- Embeds `state.rs` `StoredModelMetadata`. -/
structure StoredModelMetadata where
  original_file : String
  original_size : Nat
  total_chunks : Nat
  chunk_size_mb : Nat
  uploaded_chunks : List Nat
deriving DecidableEq

/-- The stable-memory globals of `state.rs` that the upload and streaming
endpoints read and write: `MODEL_CHUNKS` and `MODEL_METADATA`.  The
embedding assumes `initialize_canister` has run, so the chunk map is
available and `store_model_chunk` always succeeds, as in the source after
canister init. -/
structure CanisterState where
  model_chunks : List (Nat × StateModelChunk)
  model_metadata : Option StoredModelMetadata
deriving DecidableEq

/-- The fresh stable memory right after canister init. -/
def CanisterState.empty : CanisterState := ⟨[], none⟩

/-- Embeds `state::store_model_chunk` (insert-or-overwrite keyed by `chunk_id`). -/
def store_model_chunk (g : CanisterState) (chunk : StateModelChunk) : CanisterState :=
  { g with model_chunks := alSet g.model_chunks chunk.chunk_id chunk }

/-- Embeds `state::get_model_chunk`. -/
def get_model_chunk (g : CanisterState) (chunk_id : Nat) : Option StateModelChunk :=
  alLookup g.model_chunks chunk_id

/-- Embeds `state::store_model_metadata`. -/
def store_model_metadata (g : CanisterState) (metadata : StoredModelMetadata) : CanisterState :=
  { g with model_metadata := some metadata }

/-- Embeds `state::get_model_metadata`. -/
def get_model_metadata (g : CanisterState) : Option StoredModelMetadata :=
  g.model_metadata

/-- Embeds `state::are_all_chunks_uploaded`: compares the count of recorded
uploaded ordinals with the declared total (no per-ordinal check). -/
def are_all_chunks_uploaded (g : CanisterState) : Bool :=
  match get_model_metadata g with
  | some metadata => decide (metadata.uploaded_chunks.length = metadata.total_chunks)
  | none => false

/-! ## `handlers.rs`: upload endpoints -/

/-- Embeds `handlers.rs` `upload_model_chunk`, parameterised by the SHA-256
function (`DeepfakeDetector::calculate_sha256`, an external-crate
computation).  Verifies the hash first and stores nothing on mismatch;
otherwise stores the chunk and records the ordinal in the metadata
(sorted, without duplicates). -/
def upload_model_chunk (sha256 : List Nat → String) (g : CanisterState)
    (chunk_id : Nat) (chunk_data : List Nat) (chunk_hash : String) :
    CanisterState × Except String String :=
  let calculated_hash := sha256 chunk_data
  if calculated_hash ≠ chunk_hash then
    (g, .error ("Chunk hash verification failed. Expected: " ++ chunk_hash ++
                ", Got: " ++ calculated_hash))
  else
    let g1 := store_model_chunk g ⟨chunk_id, chunk_data, chunk_hash⟩
    match get_model_metadata g1 with
    | some metadata =>
      if metadata.uploaded_chunks.contains chunk_id then
        (g1, .ok ("Chunk " ++ toString chunk_id ++ " uploaded successfully"))
      else
        let metadata1 := { metadata with
          uploaded_chunks := sortNat (metadata.uploaded_chunks ++ [chunk_id]) }
        (store_model_metadata g1 metadata1,
         .ok ("Chunk " ++ toString chunk_id ++ " uploaded successfully"))
    | none => (g1, .ok ("Chunk " ++ toString chunk_id ++ " uploaded successfully"))

/-- Embeds `handlers.rs` `upload_model_metadata`. -/
def upload_model_metadata (g : CanisterState) (original_file : String)
    (original_size total_chunks chunk_size_mb : Nat) :
    CanisterState × Except String String :=
  (store_model_metadata g ⟨original_file, original_size, total_chunks, chunk_size_mb, []⟩,
   .ok "Model metadata uploaded successfully")

/-- Embeds `types` `UploadStatus` as returned by `handlers.rs` `get_upload_status`. -/
structure UploadStatus where
  total_chunks : Nat
  uploaded_chunks : Nat
  missing_chunks : List Nat
  is_complete : Bool
  original_size_mb : ℚ
deriving DecidableEq

/-- Embeds `handlers.rs` `get_upload_status`. -/
def get_upload_status (g : CanisterState) : UploadStatus :=
  match get_model_metadata g with
  | some metadata =>
    { total_chunks := metadata.total_chunks
      uploaded_chunks := metadata.uploaded_chunks.length
      missing_chunks := (List.range metadata.total_chunks).filter
        (fun id => ! metadata.uploaded_chunks.contains id)
      is_complete := are_all_chunks_uploaded g
      original_size_mb := (metadata.original_size : ℚ) / (1024 * 1024) }
  | none => ⟨0, 0, [], false, 0⟩

/-! ## `models/deepfake_detector.rs`: the streaming initializer -/

/-- Embeds `deepfake_detector.rs` `ChunkInfo`. -/
structure ChunkInfo where
  chunk_id : Nat
  filename : String
  size : Nat
  hash : String
deriving DecidableEq

/-- Embeds the `ModelMetadata` type private to `deepfake_detector.rs`. -/
structure DetectorModelMetadata where
  original_file : String
  original_size : Nat
  total_chunks : Nat
  chunk_size_mb : Nat
  chunks : List ChunkInfo
deriving DecidableEq

/-- The fields of `DeepfakeDetector` that the streaming-initialization
state machine reads and writes. -/
structure DeepfakeDetector where
  model_data : List Nat
  initialized : Bool
  model_metadata : Option DetectorModelMetadata
  streaming_init_chunks_processed : Nat
  streaming_init_in_progress : Bool
  streaming_init_model_data : List Nat
deriving DecidableEq

/-- Embeds `DeepfakeDetector::new`. -/
def DeepfakeDetector.new : DeepfakeDetector := ⟨[], false, none, 0, false, []⟩

/-- The `(len as f64 / (1024.0*1024.0) / total as f64).ceil() as u32`
expression: for the magnitudes involved (below `2^53`) the `f64`
computation is the exact rational ceiling; the `total = 0` branches model
the saturating `NaN`/`+inf` to `u32` casts. -/
def f64CeilDivMbToU32 (len total : Nat) : Nat :=
  if total = 0 then (if len = 0 then 0 else 4294967295)
  else (len + 1048576 * total - 1) / (1048576 * total)

/-- Embeds `DeepfakeDetector::start_streaming_initialization`. -/
def DeepfakeDetector.start_streaming_initialization (d : DeepfakeDetector) :
    DeepfakeDetector × Except String Unit :=
  if d.initialized then (d, .error "Model already initialized")
  else if d.streaming_init_in_progress then
    (d, .error "Streaming initialization already in progress")
  else
    ({ d with streaming_init_in_progress := true,
              streaming_init_chunks_processed := 0,
              streaming_init_model_data := [] }, .ok ())

/-- The `for chunk_id in start_chunk..end_chunk` loop of
`DeepfakeDetector::continue_streaming_initialization`: the buffer is
extended chunk by chunk, so on a missing chunk the error carries the
bytes appended so far (they have already been committed to
`self.streaming_init_model_data`). -/
def detLoop (g : CanisterState) :
    List Nat → List Nat → Except (String × List Nat) (List Nat)
  | [], buf => .ok buf
  | id :: ids, buf =>
    match get_model_chunk g id with
    | some chunk => detLoop g ids (buf ++ chunk.data)
    | none => .error ("Chunk " ++ toString id ++ " not found", buf)

/-- Embeds `DeepfakeDetector::continue_streaming_initialization`.  On a missing
chunk the processed counter is left unchanged (it is only assigned after
the loop) but the buffer keeps the bytes of the present prefix; on
success the counter jumps to `end_chunk`, and reaching
`total_chunks` finalizes with no size verification. -/
def DeepfakeDetector.continue_streaming_initialization (g : CanisterState)
    (d : DeepfakeDetector) (batch_size : Nat) :
    DeepfakeDetector × Except String (Nat × Nat) :=
  if ¬ d.streaming_init_in_progress then
    (d, .error "Streaming initialization not started")
  else
    match get_model_metadata g with
    | none => (d, .error "Model metadata not found")
    | some metadata =>
      let total_chunks := metadata.total_chunks
      let start_chunk := d.streaming_init_chunks_processed
      let end_chunk := min (start_chunk + batch_size) total_chunks
      match detLoop g (List.range' start_chunk (end_chunk - start_chunk))
          d.streaming_init_model_data with
      | .error (e, bufSoFar) =>
        ({ d with streaming_init_model_data := bufSoFar }, .error e)
      | .ok buf =>
        let d1 := { d with streaming_init_model_data := buf,
                           streaming_init_chunks_processed := end_chunk }
        if d1.streaming_init_chunks_processed ≥ total_chunks then
          let final_data := d1.streaming_init_model_data
          ({ d1 with model_data := final_data,
                     streaming_init_model_data := [],
                     initialized := true,
                     streaming_init_in_progress := false,
                     model_metadata := some ⟨"uploaded-model.onnx", final_data.length,
                       total_chunks, f64CeilDivMbToU32 final_data.length total_chunks, []⟩ },
           .ok (end_chunk, total_chunks))
        else (d1, .ok (end_chunk, total_chunks))

/-- Embeds `handlers.rs` `continue_initialization`: defaults the batch size to 10
and forwards to the detector with no further validation. -/
def continue_initialization (g : CanisterState) (d : DeepfakeDetector)
    (batch_size : Option Nat) : DeepfakeDetector × Except String (Nat × Nat) :=
  DeepfakeDetector.continue_streaming_initialization g d (batch_size.getD 10)

/-- Data of the stable-memory chunk stored under ordinal `i`
(empty if absent). -/
def chunkDataAt (g : CanisterState) (i : Nat) : List Nat :=
  ((get_model_chunk g i).getD ⟨0, [], ""⟩).data

/-- Concatenation of the stable-memory chunk bytes for ordinals
`start, …, start + len - 1` in increasing order. -/
def concatChunkRange (g : CanisterState) (start len : Nat) : List Nat :=
  ((List.range' start len).map (chunkDataAt g)).flatten

/-! ## `model/verichain_model.rs` -/

/-- Embeds `verichain_model.rs` `OnnxGraph`: the extracted named weight sections.
Weight values are `f32` in the source; their numeric content is never
inspected by the claims, only carried. -/
structure OnnxGraph where
  weights : List (String × List ℚ)
deriving DecidableEq

/-- Embeds `verichain_model.rs` `VeriChainModel`. -/
structure VeriChainModel where
  model_data : Option (List Nat)
  model_loaded : Bool
  model_hash : Option String
  total_parameters : Nat
  onnx_graph : Option OnnxGraph
deriving DecidableEq

/-- Embeds `VeriChainModel::new`. -/
def VeriChainModel.new : VeriChainModel := ⟨none, false, none, 85800000, none⟩

/-- Embeds `VeriChainModel::load_from_bytes`, parameterised by the SHA-256
function and by `parse_onnx_model` (whose `f32` weight extraction is not
shallowly embeddable; the theorems hold for every parser).  The size gate
`300_000_000 ..= 400_000_000` runs before anything is stored. -/
def VeriChainModel.load_from_bytes (sha256 : List Nat → String)
    (parseOnnx : List Nat → Except String OnnxGraph)
    (m : VeriChainModel) (model_data : List Nat) :
    VeriChainModel × Except String Unit :=
  let actual_size := model_data.length
  if actual_size < 300000000 ∨ 400000000 < actual_size then
    (m, .error ("Invalid model size: " ++ toString (actual_size / (1024 * 1024)) ++
                "MB. Expected: " ++ toString (300000000 / (1024 * 1024)) ++
                "MB - " ++ toString (400000000 / (1024 * 1024)) ++ "MB"))
  else
    let hash := sha256 model_data
    match parseOnnx model_data with
    | .ok graph =>
      ({ m with model_data := some model_data, onnx_graph := some graph,
                model_hash := some hash, model_loaded := true }, .ok ())
    | .error e => (m, .error ("Failed to parse ONNX model: " ++ e))

/-! ## `handlers/model_management.rs` -/

/-- Modelled from the spec: `validate_batch_size` is imported by
`handlers/model_management.rs` from `crate::utils` but no definition
exists under `src/`.  The spec says callers may override the batch size
within a validated range and that values outside `[1, 200]` are rejected
with `InvalidBatchSize`. -/
def validate_batch_size (batch_size : Nat) : Except String Unit :=
  if batch_size < 1 ∨ 200 < batch_size then .error "InvalidBatchSize" else .ok ()

/-- Embeds `model_management.rs` `calculate_optimal_batch_size`. -/
def calculate_optimal_batch_size (total_chunks : Nat) : Nat :=
  if total_chunks ≤ 200 then 50
  else if total_chunks ≤ 350 then 75
  else 100

/-- Embeds `model_management.rs` `handle_continue_initialization`: refuses when
already initialized, validates the (defaulted) batch size, processes one
batch, and on completion loads the assembled bytes into the model. -/
def handle_continue_initialization (sha256 : List Nat → String)
    (parseOnnx : List Nat → Except String OnnxGraph)
    (storage : ModelStorage) (model : VeriChainModel) (batch_size : Option Nat) :
    ModelStorage × VeriChainModel × Except String String :=
  if storage.is_initialized then (storage, model, .error "Model already initialized")
  else
    let total_chunks := storage.get_initialization_progress.2
    let b := batch_size.getD (calculate_optimal_batch_size total_chunks)
    match validate_batch_size b with
    | .error e => (storage, model, .error e)
    | .ok _ =>
      let pr := storage.process_chunks_batch b
      match pr.2 with
      | .error e => (pr.1, model, .error e)
      | .ok processed =>
        let s1 := pr.1
        if s1.is_initialized then
          match s1.get_model_data with
          | some md =>
            let lr := VeriChainModel.load_from_bytes sha256 parseOnnx model md
            match lr.2 with
            | .ok _ =>
              (s1, lr.1, .ok ("Model initialization completed! Processed " ++
                              toString processed ++ " chunks in final batch"))
            | .error e => (s1, lr.1, .error e)
          | none =>
            (s1, model, .ok ("Processed " ++ toString processed ++ " chunks. Progress: " ++
                             toString s1.processed_chunks ++ "/" ++ toString s1.total_chunks))
        else
          (s1, model, .ok ("Processed " ++ toString processed ++ " chunks. Progress: " ++
                           toString s1.processed_chunks ++ "/" ++ toString s1.total_chunks))

/-! ## `types/prediction.rs` -/

/-- Embeds `prediction.rs` `PredictionLabel`. -/
inductive PredictionLabel where
  | Real
  | AIGenerated
  | Deepfake
deriving DecidableEq

/-- Embeds `prediction.rs` `RawScores` (scores are `f64` in the source; only
comparisons, `max`, `min` and clamping are applied to them, all exact
on `ℚ`). -/
structure RawScores where
  real : ℚ
  ai_generated : ℚ
  deepfake : ℚ
deriving DecidableEq

/-- Embeds `RawScores::new`: clamps every score into `[0.01, 0.98]`
via `x.max(0.01).min(0.98)`. -/
def RawScores.new (real ai_generated deepfake : ℚ) : RawScores :=
  ⟨min (max real (1/100)) (49/50),
   min (max ai_generated (1/100)) (49/50),
   min (max deepfake (1/100)) (49/50)⟩

/-- One step of Rust `Iterator::max_by` (which keeps the LATER element
when the comparison is not `Greater`, i.e. the last of equal maxima). -/
def rustMaxBy (a b : ℚ × PredictionLabel) : ℚ × PredictionLabel :=
  if a.1 > b.1 then a else b

/-- Embeds `RawScores::get_max_score_and_label`: `max_by` over the array
`[(ai_generated, AIGenerated), (deepfake, Deepfake), (real, Real)]`. -/
def RawScores.get_max_score_and_label (s : RawScores) : ℚ × PredictionLabel :=
  rustMaxBy (rustMaxBy (s.ai_generated, PredictionLabel.AIGenerated)
                       (s.deepfake, PredictionLabel.Deepfake))
            (s.real, PredictionLabel.Real)

/-- Embeds `prediction.rs` `PredictionResult`. -/
structure PredictionResult where
  label : PredictionLabel
  confidence : ℚ
  raw_scores : RawScores
deriving DecidableEq

/-- Embeds `PredictionResult::new`: takes the max score and label, then clamps
the confidence into `[0.1, 0.99]`. -/
def PredictionResult.new (raw_scores : RawScores) : PredictionResult :=
  let p := raw_scores.get_max_score_and_label
  ⟨p.2, min (max p.1 (1/10)) (99/100), raw_scores⟩

/-! ## `VeriChainModel::apply_softmax` -/

/-- The exponential weights computed by `apply_softmax`: the maximum
logit is subtracted from each logit BEFORE applying the exponential
(`(x - max_logit).exp()`); the exponential itself is a transcendental
`f32` function taken as the parameter `expF`. -/
def softmax_parts (expF : ℚ → ℚ) (logits : ℚ × ℚ × ℚ) : ℚ × ℚ × ℚ :=
  let max_logit := max logits.1 (max logits.2.1 logits.2.2)
  (expF (logits.1 - max_logit), expF (logits.2.1 - max_logit),
   expF (logits.2.2 - max_logit))

/-- Embeds `VeriChainModel::apply_softmax`: normalizes the exponential weights
by their sum, clamps each quotient into `[0.01, 0.98]`, and builds the
`RawScores` (which clamp once more, idempotently).  Index 0 is the
`real` class, 1 is `ai_generated`, 2 is `deepfake`. -/
def apply_softmax (expF : ℚ → ℚ) (logits : ℚ × ℚ × ℚ) : RawScores :=
  let e := softmax_parts expF logits
  let sum_exp := e.1 + e.2.1 + e.2.2
  RawScores.new (min (max (e.1 / sum_exp) (1/100)) (49/50))
                (min (max (e.2.1 / sum_exp) (1/100)) (49/50))
                (min (max (e.2.2 / sum_exp) (1/100)) (49/50))

/-! ## Concrete scenario states used by the counterexamples and witnesses.
All of them are built exclusively through the embedded public operations,
so every state below is reachable through the canister endpoints. -/

/-- A concrete stand-in for the SHA-256 function, used only to build
scenario states whose stored hashes match. -/
def constHash : List Nat → String := fun _ => "h"

/-- Declare 3 fragments (total size 300) and upload only ordinals 0 and 2,
as in the missing-fragment scenario of the spec. -/
def gMissing : CanisterState :=
  let g1 := (upload_model_metadata CanisterState.empty "model.onnx" 300 3 1).1
  let g2 := (upload_model_chunk constHash g1 0 [1] "h").1
  (upload_model_chunk constHash g2 2 [3] "h").1

/-- A detector on which streaming initialization has been started
(the `start_streaming_initialization` endpoint performs no
completeness check). -/
def dStreaming : DeepfakeDetector :=
  DeepfakeDetector.new.start_streaming_initialization.1

/-- Declare 1 fragment of declared size 100 and upload a single chunk
under the out-of-range ordinal 5 (no range validation exists on the
upload path). -/
def gOutOfRange : CanisterState :=
  let g1 := (upload_model_metadata CanisterState.empty "model.onnx" 100 1 1).1
  (upload_model_chunk constHash g1 5 [7] "h").1

/-- A `ModelStorage` whose metadata declares total size 300 for one chunk,
while the uploaded chunk holds only 5 bytes; initialization started. -/
def msSizeMismatch : ModelStorage :=
  let s1 := (ModelStorage.new.store_metadata ⟨"model.onnx", 300, 1, 25, "VeriChain-ViT-v1.0"⟩).1
  let s2 := (s1.store_chunk ⟨0, [7, 7, 7, 7, 7], "h"⟩).1
  s2.start_initialization.1

/-- A `ModelStorage` with 3 declared fragments uploaded in arrival order
1, 0, 2 (scrambled on purpose) and initialization started. -/
def msComplete : ModelStorage :=
  let s1 := (ModelStorage.new.store_metadata ⟨"model.onnx", 3, 3, 1, "VeriChain-ViT-v1.0"⟩).1
  let s2 := (s1.store_chunk ⟨1, [2], "h"⟩).1
  let s3 := (s2.store_chunk ⟨0, [1], "h"⟩).1
  let s4 := (s3.store_chunk ⟨2, [3], "h"⟩).1
  s4.start_initialization.1

/-- A `ModelStorage` holding a single chunk under ordinal 0. -/
def msDup : ModelStorage := (ModelStorage.new.store_chunk ⟨0, [1], "h"⟩).1

/-- A canister state with metadata declaring 2 fragments and none
uploaded yet. -/
def gIdem : CanisterState :=
  (upload_model_metadata CanisterState.empty "model.onnx" 2 2 1).1

/-- A positive, monotone stand-in for the `f32` exponential, sampled at
the three arguments produced by the logits `(0, -3, -5)`: it returns the
weights `981`, `18`, `1`, which the real exponential produces (up to
rounding) at the logits `(ln 981, ln 18, 0)`. -/
def expW : ℚ → ℚ := fun x => if x < -4 then 1 else if x < -2 then 18 else 981

/-- The invariant maintained by `process_chunks_batch`: the processed
counter never exceeds the declared total, an absent buffer means nothing
was processed yet, a present buffer is exactly the concatenation of the
fragments with ordinals below the processed counter, and completion can
only hold at the declared total with a present buffer. -/
def StorageInv (s : ModelStorage) : Prop :=
  s.processed_chunks ≤ s.total_chunks ∧
  (s.model_data = none → s.processed_chunks = 0) ∧
  (∀ d, s.model_data = some d →
     d = ((List.range' 0 s.processed_chunks).map (msChunkDataAt s)).flatten) ∧
  (s.is_initialized = true → s.processed_chunks = s.total_chunks ∧ s.model_data ≠ none)

/-! ## Helper lemmas -/

theorem alSet_alSet {α : Type} (l : List (Nat × α)) (k : Nat) (v : α) :
    alSet (alSet l k v) k v = alSet l k v := by
  induction l with
  | nil => simp [alSet]
  | cons p l ih =>
    obtain ⟨k', v'⟩ := p
    by_cases h : k' = k
    · simp [alSet, h]
    · simp [alSet, h, ih]

theorem mem_insertSorted (x y : Nat) (l : List Nat) :
    y ∈ insertSorted x l ↔ y = x ∨ y ∈ l := by
  induction l with
  | nil => simp [insertSorted]
  | cons z l ih =>
    by_cases h : x ≤ z <;> (simp [insertSorted, h, ih]; try tauto)

theorem mem_sortNat (y : Nat) (l : List Nat) : y ∈ sortNat l ↔ y ∈ l := by
  induction l with
  | nil => simp [sortNat]
  | cons x l ih => simp [sortNat, mem_insertSorted, ih]

theorem range'_split (s a b : Nat) (hab : a ≤ b) :
    List.range' s b = List.range' s a ++ List.range' (s + a) (b - a) := by
  have h2 : a + (b - a) = b := by omega
  calc List.range' s b = List.range' s (a + (b - a)) := by rw [h2]
    _ = List.range' s a ++ List.range' (s + 1 * a) (b - a) := by
          rw [List.range'_append, Nat.add_comm]
    _ = List.range' s a ++ List.range' (s + a) (b - a) := by rw [one_mul]

theorem msLoop_ok (chunks : List (Nat × ModelChunk)) (ids : List Nat) :
    ∀ (buf : List Nat) (p : Nat),
      (∀ i ∈ ids, (alLookup chunks i).isSome = true) →
      msLoop chunks ids buf p =
        (buf ++ (ids.map (chunkDataOf chunks)).flatten, p + ids.length, none) := by
  induction ids with
  | nil => intro buf p _; simp [msLoop]
  | cons id ids ih =>
    intro buf p h
    obtain ⟨c, hc⟩ := Option.isSome_iff_exists.mp (h id (by simp))
    simp only [msLoop, hc]
    rw [ih (buf ++ c.data) (p + 1) (fun i hi => h i (by simp [hi]))]
    simp only [List.map_cons, List.flatten_cons, chunkDataOf, hc, Option.getD_some,
      List.append_assoc, List.length_cons, Prod.mk.injEq]
    refine ⟨by trivial, by omega, by trivial⟩

theorem msLoop_missing (chunks : List (Nat × ModelChunk)) (pre : List Nat) :
    ∀ (m : Nat) (post buf : List Nat) (p : Nat),
      (∀ i ∈ pre, (alLookup chunks i).isSome = true) →
      alLookup chunks m = none →
      msLoop chunks (pre ++ m :: post) buf p =
        (buf ++ (pre.map (chunkDataOf chunks)).flatten, p + pre.length,
         some ("Missing chunk " ++ toString m ++ " during initialization")) := by
  induction pre with
  | nil => intro m post buf p _ hm; simp [msLoop, hm]
  | cons id pre ih =>
    intro m post buf p h hm
    obtain ⟨c, hc⟩ := Option.isSome_iff_exists.mp (h id (by simp))
    rw [List.cons_append]
    simp only [msLoop, hc]
    rw [ih m post (buf ++ c.data) (p + 1) (fun i hi => h i (by simp [hi])) hm]
    simp only [List.map_cons, List.flatten_cons, chunkDataOf, hc, Option.getD_some,
      List.append_assoc, List.length_cons, Prod.mk.injEq]
    refine ⟨by trivial, by omega, by trivial⟩

theorem detLoop_ok (g : CanisterState) (ids : List Nat) :
    ∀ (buf : List Nat),
      (∀ i ∈ ids, (get_model_chunk g i).isSome = true) →
      detLoop g ids buf = .ok (buf ++ (ids.map (chunkDataAt g)).flatten) := by
  induction ids with
  | nil => intro buf _; simp [detLoop]
  | cons id ids ih =>
    intro buf h
    obtain ⟨c, hc⟩ := Option.isSome_iff_exists.mp (h id (by simp))
    simp only [detLoop, hc]
    rw [ih (buf ++ c.data) (fun i hi => h i (by simp [hi]))]
    simp [chunkDataAt, hc, List.append_assoc]

theorem detLoop_missing (g : CanisterState) (pre : List Nat) :
    ∀ (m : Nat) (post buf : List Nat),
      (∀ i ∈ pre, (get_model_chunk g i).isSome = true) →
      get_model_chunk g m = none →
      detLoop g (pre ++ m :: post) buf =
        .error ("Chunk " ++ toString m ++ " not found",
                buf ++ (pre.map (chunkDataAt g)).flatten) := by
  induction pre with
  | nil => intro m post buf _ hm; simp [detLoop, hm]
  | cons id pre ih =>
    intro m post buf h hm
    obtain ⟨c, hc⟩ := Option.isSome_iff_exists.mp (h id (by simp))
    rw [List.cons_append]
    simp only [detLoop, hc]
    rw [ih m post (buf ++ c.data) (fun i hi => h i (by simp [hi])) hm]
    simp [chunkDataAt, hc, List.append_assoc]

theorem process_chunks_batch_fields (s : ModelStorage) (b : Nat) :
    (s.process_chunks_batch b).1.chunks = s.chunks ∧
    (s.process_chunks_batch b).1.total_chunks = s.total_chunks := by
  unfold ModelStorage.process_chunks_batch
  dsimp only
  repeat' split
  all_goals exact ⟨rfl, rfl⟩

/-- When every ordinal of the requested window is present, one batch call
succeeds, appends exactly the window bytes in increasing ordinal order,
moves the processed counter to the window end, and sets the
initialized flag exactly when the counter reaches the declared total. -/
theorem process_chunks_batch_all_present (s : ModelStorage) (b : Nat)
    (hst : s.initialization_started = true)
    (hini : s.is_initialized = false)
    (hn : s.processed_chunks ≤ s.total_chunks)
    (hpres : ∀ i ∈ List.range' s.processed_chunks
        (min (s.processed_chunks + b) s.total_chunks - s.processed_chunks),
        (alLookup s.chunks i).isSome = true) :
    s.process_chunks_batch b =
      ({ s with
           model_data := some (s.model_data.getD [] ++
             ((List.range' s.processed_chunks
                (min (s.processed_chunks + b) s.total_chunks - s.processed_chunks)).map
               (msChunkDataAt s)).flatten),
           processed_chunks := min (s.processed_chunks + b) s.total_chunks,
           is_initialized := decide (s.total_chunks ≤ min (s.processed_chunks + b) s.total_chunks) },
       .ok (min (s.processed_chunks + b) s.total_chunks - s.processed_chunks)) := by
  have hkey : s.processed_chunks + (min (s.processed_chunks + b) s.total_chunks -
      s.processed_chunks) = min (s.processed_chunks + b) s.total_chunks := by omega
  unfold ModelStorage.process_chunks_batch
  simp only [hst, hini, Bool.not_true, Bool.false_eq_true, if_false, ite_false,
    not_true_eq_false]
  rw [msLoop_ok s.chunks _ _ _ hpres]
  simp only [List.length_map, List.length_range', hkey, msChunkDataAt]
  by_cases hc : s.total_chunks ≤ min (s.processed_chunks + b) s.total_chunks
  · simp only [hc, ge_iff_le, if_true, decide_eq_true_eq, if_pos, decide_True]
    rfl
  · simp only [hc, ge_iff_le, if_false, decide_eq_false hc, if_neg hc]
    rfl

theorem process_chunks_batch_inv (s : ModelStorage) (b : Nat)
    (hpres : ∀ i ∈ List.range s.total_chunks, (alLookup s.chunks i).isSome = true)
    (hinv : StorageInv s) : StorageInv (s.process_chunks_batch b).1 := by
  obtain ⟨h1, h2, h3, h4⟩ := hinv
  by_cases hst : s.initialization_started = true
  · by_cases hini : s.is_initialized = true
    · have : s.process_chunks_batch b = (s, .error "Model already initialized") := by
        unfold ModelStorage.process_chunks_batch
        simp [hst, hini]
      rw [this]; exact ⟨h1, h2, h3, h4⟩
    · have hini' : s.is_initialized = false := by
        cases h : s.is_initialized
        · rfl
        · exact absurd h hini
      have hwin : ∀ i ∈ List.range' s.processed_chunks
          (min (s.processed_chunks + b) s.total_chunks - s.processed_chunks),
          (alLookup s.chunks i).isSome = true := by
        intro i hi
        rw [List.mem_range'_1] at hi
        refine hpres i (List.mem_range.mpr ?_)
        omega
      rw [process_chunks_batch_all_present s b hst hini' h1 hwin]
      refine ⟨min_le_right _ _, by simp, ?_, ?_⟩
      · intro d hd
        simp only [Option.some.injEq] at hd
        subst hd
        have hcm : msChunkDataAt { s with
            model_data := some (s.model_data.getD [] ++
              ((List.range' s.processed_chunks
                 (min (s.processed_chunks + b) s.total_chunks - s.processed_chunks)).map
                (msChunkDataAt s)).flatten),
            processed_chunks := min (s.processed_chunks + b) s.total_chunks,
            is_initialized := decide (s.total_chunks ≤ min (s.processed_chunks + b) s.total_chunks) }
            = msChunkDataAt s := rfl
        rw [hcm]
        rw [range'_split 0 s.processed_chunks (min (s.processed_chunks + b) s.total_chunks)
          (le_min (Nat.le_add_right _ _) h1)]
        simp only [Nat.zero_add, List.map_append, List.flatten_append]
        congr 1
        cases hmd : s.model_data with
        | none => rw [h2 hmd]; simp
        | some d0 => simp [h3 d0 hmd]
      · intro hinit
        simp only [decide_eq_true_eq] at hinit
        exact ⟨le_antisymm (min_le_right _ _) hinit, by simp⟩
  · have : s.process_chunks_batch b = (s, .error "Initialization not started") := by
      unfold ModelStorage.process_chunks_batch
      simp [hst]
    rw [this]; exact ⟨h1, h2, h3, h4⟩

theorem runBatches_fields (bs : List Nat) :
    ∀ s : ModelStorage, (runBatches bs s).chunks = s.chunks ∧
      (runBatches bs s).total_chunks = s.total_chunks := by
  induction bs with
  | nil => intro s; exact ⟨rfl, rfl⟩
  | cons b bs ih =>
    intro s
    obtain ⟨hc, ht⟩ := process_chunks_batch_fields s b
    obtain ⟨hc', ht'⟩ := ih (s.process_chunks_batch b).1
    exact ⟨hc'.trans hc, ht'.trans ht⟩

theorem runBatches_inv (bs : List Nat) :
    ∀ s : ModelStorage,
      (∀ i ∈ List.range s.total_chunks, (alLookup s.chunks i).isSome = true) →
      StorageInv s → StorageInv (runBatches bs s) := by
  induction bs with
  | nil => intro s _ hinv; exact hinv
  | cons b bs ih =>
    intro s hpres hinv
    obtain ⟨hc, ht⟩ := process_chunks_batch_fields s b
    refine ih (s.process_chunks_batch b).1 ?_ (process_chunks_batch_inv s b hpres hinv)
    rw [hc, ht]
    exact hpres

/-! ## Claim C1 -/

/-- C1 counterexample: after declaring 3 fragments and uploading only
ordinals 0 and 2 (all states built through the public endpoints),
`continue_streaming_initialization g 3` fails with the missing-fragment
error and leaves the processed counter at 0, but the accumulated buffer
is NOT left unchanged: it goes from `[]` to the bytes of fragment 0.
This refutes the claim that the advance operation leaves the assembly
state unchanged on a missing fragment. -/
theorem advance_missing_fragment_commits_prefix_cex :
    (DeepfakeDetector.continue_streaming_initialization gMissing dStreaming 3).2 =
      .error "Chunk 1 not found" ∧
    (DeepfakeDetector.continue_streaming_initialization gMissing dStreaming 3).1.streaming_init_chunks_processed = 0 ∧
    dStreaming.streaming_init_model_data = [] ∧
    (DeepfakeDetector.continue_streaming_initialization gMissing dStreaming 3).1.streaming_init_model_data = [1] := by
  exact ⟨by decide, by decide, by decide, by decide⟩

/-- C1 (amended): if some required ordinal `m` in the batch window
`[n, min (n + b, declared_fragment_count))` is the first absent fragment,
`continue_streaming_initialization` returns the missing-fragment error
for `m` and leaves the processed counter at `n`, but it appends the bytes
of the present fragments `[n, m)` to the accumulated buffer — the batch
is not rolled back. -/
theorem continue_streaming_missing_fragment (g : CanisterState) (d : DeepfakeDetector)
    (batch_size m : Nat) (meta : StoredModelMetadata)
    (hprog : d.streaming_init_in_progress = true)
    (hmeta : get_model_metadata g = some meta)
    (hlo : d.streaming_init_chunks_processed ≤ m)
    (hhi : m < min (d.streaming_init_chunks_processed + batch_size) meta.total_chunks)
    (hmiss : get_model_chunk g m = none)
    (hpre : ∀ i ∈ List.range' d.streaming_init_chunks_processed
        (m - d.streaming_init_chunks_processed), (get_model_chunk g i).isSome = true) :
    DeepfakeDetector.continue_streaming_initialization g d batch_size =
      ({ d with streaming_init_model_data := (d.streaming_init_model_data ++
           concatChunkRange g d.streaming_init_chunks_processed
             (m - d.streaming_init_chunks_processed)) },
       .error ("Chunk " ++ toString m ++ " not found")) := by
  unfold DeepfakeDetector.continue_streaming_initialization
  rw [hmeta]
  simp only [hprog, not_true_eq_false, if_false, Bool.true_eq_false, ite_false]
  have hsplit : List.range' d.streaming_init_chunks_processed
      (min (d.streaming_init_chunks_processed + batch_size) meta.total_chunks -
        d.streaming_init_chunks_processed) =
      List.range' d.streaming_init_chunks_processed
          (m - d.streaming_init_chunks_processed) ++
        m :: List.range' (m + 1)
          (min (d.streaming_init_chunks_processed + batch_size) meta.total_chunks - (m + 1)) := by
    set X := min (d.streaming_init_chunks_processed + batch_size) meta.total_chunks with hX
    rw [range'_split d.streaming_init_chunks_processed
      (m - d.streaming_init_chunks_processed) (X - d.streaming_init_chunks_processed)
      (by omega)]
    have h1 : d.streaming_init_chunks_processed +
        (m - d.streaming_init_chunks_processed) = m := by omega
    have h2 : X - d.streaming_init_chunks_processed -
        (m - d.streaming_init_chunks_processed) = (X - (m + 1)) + 1 := by omega
    rw [h1, h2]
    rfl
  rw [hsplit, detLoop_missing g _ m _ _ hpre hmiss]
  rfl

/-- C1 witness for the amended theorem, at the concrete scenario of the
claim: declared count 3, fragments 0 and 2 present, `advance(3)`. -/
theorem continue_streaming_missing_fragment_witness :
    DeepfakeDetector.continue_streaming_initialization gMissing dStreaming 3 =
      ({ dStreaming with streaming_init_model_data :=
           (dStreaming.streaming_init_model_data ++ concatChunkRange gMissing 0 1) },
       .error ("Chunk " ++ toString 1 ++ " not found")) :=
  continue_streaming_missing_fragment gMissing dStreaming 3 1
    ⟨"model.onnx", 300, 3, 1, [0, 2]⟩ (by decide) (by decide) (by decide) (by decide)
    (by decide) (by decide)

/-! ## Claim C2 -/

/-- C2: the failing input for the size-verification claim.  The metadata
declares `original_size = 300` for a single fragment, the stored fragment
holds 5 bytes, yet the boundary batch call succeeds and sets the
initialized (Complete) flag: no `SizeMismatch` is reported and the state
does not remain in progress.  (The non-streaming sibling
`DeepfakeDetector::initialize_model` DOES perform exactly this check and
fails with "Model size mismatch after loading chunks", so the omission in
the streaming path contradicts the intent evidenced by the code itself.) -/
theorem streaming_completion_skips_size_verification :
    msSizeMismatch.metadata.map (fun m => m.original_size) = some 300 ∧
    (msSizeMismatch.process_chunks_batch 1).2 = .ok 1 ∧
    (msSizeMismatch.process_chunks_batch 1).1.is_initialized = true ∧
    (msSizeMismatch.process_chunks_batch 1).1.model_data = some [7, 7, 7, 7, 7] ∧
    ([7, 7, 7, 7, 7] : List Nat).length ≠ 300 :=
  ⟨by decide, by decide, by decide, by decide, by decide⟩

/-! ## Claim C3 -/

/-- C3: for a complete fragment set (every ordinal below the declared
total present, in any arrival order), any sequence of batch sizes that
drives the assembly to the initialized state produces the SAME final
artifact: the concatenation of the fragment bytes in strictly increasing
ordinal order.  In particular the artifact is independent of the batch
partition chosen. -/
theorem assembled_artifact_ordered_and_batch_invariant (s : ModelStorage) (bs : List Nat)
    (hpres : ∀ i ∈ List.range s.total_chunks, (alLookup s.chunks i).isSome = true)
    (hproc : s.processed_chunks = 0) (hbuf : s.model_data = none)
    (hini : s.is_initialized = false)
    (hdone : (runBatches bs s).is_initialized = true) :
    (runBatches bs s).model_data = some s.assembledArtifact := by
  have hinv0 : StorageInv s := by
    refine ⟨by omega, fun _ => hproc, ?_, ?_⟩
    · intro d hd
      rw [hbuf] at hd
      cases hd
    · intro h
      rw [hini] at h
      cases h
  have hinv := runBatches_inv bs s hpres hinv0
  obtain ⟨hfc, hft⟩ := runBatches_fields bs s
  obtain ⟨h1, h2, h3, h4⟩ := hinv
  obtain ⟨hp, hnn⟩ := h4 hdone
  cases hmd : (runBatches bs s).model_data with
  | none => exact absurd hmd hnn
  | some dfin =>
    rw [h3 dfin hmd]
    unfold ModelStorage.assembledArtifact
    have hfun : msChunkDataAt (runBatches bs s) = msChunkDataAt s := by
      funext i
      unfold msChunkDataAt
      rw [hfc]
    rw [hp, hft, hfun]

/-- C3 witness: three 1-byte fragments uploaded in arrival order 1, 0, 2;
running the batches `[2, 2]` completes and yields the ordinal-order
concatenation. -/
theorem assembled_artifact_ordered_and_batch_invariant_witness :
    (runBatches [2, 2] msComplete).model_data = some msComplete.assembledArtifact :=
  assembled_artifact_ordered_and_batch_invariant msComplete [2, 2]
    (by decide) (by decide) (by decide) (by decide) (by decide)

/-! ## Claim C4 -/

/-- C4 counterexample: a second `store_chunk` under an already-stored
ordinal is REJECTED with "Chunk 0 already exists" (state unchanged), not
accepted as an idempotent overwrite. -/
theorem store_chunk_rejects_reupload_cex :
    (msDup.store_chunk ⟨0, [1], "h"⟩).2 = .error "Chunk 0 already exists" ∧
    (msDup.store_chunk ⟨0, [1], "h"⟩).1 = msDup :=
  ⟨by decide, by decide⟩

/-- Storing the same chunk twice into the stable-memory map is a no-op
the second time. -/
theorem store_model_chunk_idem (g g' : CanisterState) (chunk_id : Nat)
    (chunk_data : List Nat) (chunk_hash : String)
    (hg' : g'.model_chunks = alSet g.model_chunks chunk_id ⟨chunk_id, chunk_data, chunk_hash⟩) :
    store_model_chunk g' ⟨chunk_id, chunk_data, chunk_hash⟩ = g' := by
  unfold store_model_chunk
  rw [hg', alSet_alSet, ← hg']

/-- C4 (amended): the stable-memory upload path IS idempotent — calling
`upload_model_chunk` twice with the same ordinal, bytes and valid digest
succeeds both times and the second call leaves the state exactly as
after the first, so the final artifact is the same as after a single
upload — but `ModelStorage::store_chunk` rejects the duplicate ordinal
as an error instead of accepting it. -/
theorem upload_model_chunk_idempotent (sha256 : List Nat → String) (g : CanisterState)
    (chunk_id : Nat) (chunk_data : List Nat) (chunk_hash : String)
    (hhash : sha256 chunk_data = chunk_hash) :
    (upload_model_chunk sha256 g chunk_id chunk_data chunk_hash).2 =
      .ok ("Chunk " ++ toString chunk_id ++ " uploaded successfully") ∧
    upload_model_chunk sha256 (upload_model_chunk sha256 g chunk_id chunk_data chunk_hash).1
        chunk_id chunk_data chunk_hash =
      ((upload_model_chunk sha256 g chunk_id chunk_data chunk_hash).1,
       .ok ("Chunk " ++ toString chunk_id ++ " uploaded successfully")) := by
  unfold upload_model_chunk
  simp only [hhash, ne_eq, not_true_eq_false, if_false, ite_false]
  cases hm : g.model_metadata with
  | none =>
    rw [show get_model_metadata (store_model_chunk g ⟨chunk_id, chunk_data, chunk_hash⟩) =
        (none : Option StoredModelMetadata) from hm]
    refine ⟨by trivial, ?_⟩
    rw [show get_model_metadata (store_model_chunk
        (store_model_chunk g ⟨chunk_id, chunk_data, chunk_hash⟩)
        ⟨chunk_id, chunk_data, chunk_hash⟩) = (none : Option StoredModelMetadata) from hm]
    rw [store_model_chunk_idem g _ chunk_id chunk_data chunk_hash rfl]
  | some meta =>
    rw [show get_model_metadata (store_model_chunk g ⟨chunk_id, chunk_data, chunk_hash⟩) =
        some meta from hm]
    by_cases hc : meta.uploaded_chunks.contains chunk_id
    · simp only [hc, if_true, ite_true]
      refine ⟨by trivial, ?_⟩
      rw [store_model_chunk_idem g _ chunk_id chunk_data chunk_hash rfl]
      rw [show get_model_metadata (store_model_chunk g ⟨chunk_id, chunk_data, chunk_hash⟩) =
          some meta from hm]
      simp only [hc, if_true, ite_true]
    · simp only [hc, if_false, ite_false, Bool.false_eq_true]
      refine ⟨by trivial, ?_⟩
      have hmem : (sortNat (meta.uploaded_chunks ++ [chunk_id])).contains chunk_id = true := by
        have : chunk_id ∈ sortNat (meta.uploaded_chunks ++ [chunk_id]) := by
          rw [mem_sortNat]
          simp
        exact List.elem_iff.mpr this
      rw [store_model_chunk_idem g _ chunk_id chunk_data chunk_hash rfl]
      rw [show get_model_metadata (store_model_metadata
          (store_model_chunk g ⟨chunk_id, chunk_data, chunk_hash⟩)
          { meta with uploaded_chunks := sortNat (meta.uploaded_chunks ++ [chunk_id]) }) =
          some { meta with uploaded_chunks := sortNat (meta.uploaded_chunks ++ [chunk_id]) }
          from rfl]
      simp only [hmem, if_true, ite_true]

/-- C4 witness for the amended theorem at a concrete state with declared
metadata. -/
theorem upload_model_chunk_idempotent_witness :
    (upload_model_chunk constHash gIdem 0 [1] "h").2 =
      .ok ("Chunk " ++ toString 0 ++ " uploaded successfully") ∧
    upload_model_chunk constHash (upload_model_chunk constHash gIdem 0 [1] "h").1 0 [1] "h" =
      ((upload_model_chunk constHash gIdem 0 [1] "h").1,
       .ok ("Chunk " ++ toString 0 ++ " uploaded successfully")) :=
  upload_model_chunk_idempotent constHash gIdem 0 [1] "h" (by decide)

/-! ## Claim C5 -/

/-- C5 counterexample: with 1 declared fragment and a single upload under
the out-of-range ordinal 5 (accepted: no range validation exists on the
upload path), the status reports `is_complete = true` while ordinal 0 is
missing — so `is_complete` does not imply that no ordinal in
`[0, declared_fragment_count)` is missing, and the received ordinals are
not a subset of `[0, declared_fragment_count)`. -/
theorem upload_status_out_of_range_cex :
    (get_upload_status gOutOfRange).is_complete = true ∧
    (get_upload_status gOutOfRange).missing_chunks = [0] :=
  ⟨by decide, by decide⟩

/-- C5 (amended): `is_complete` is determined solely by comparing the
COUNT of recorded uploaded ordinals with the declared fragment count; the
per-ordinal condition of the claim is not checked, and stored ordinals
are not constrained to `[0, declared_fragment_count)`. -/
theorem upload_status_complete_counts_only (g : CanisterState) (meta : StoredModelMetadata)
    (hmeta : g.model_metadata = some meta) :
    (get_upload_status g).is_complete =
      decide (meta.uploaded_chunks.length = meta.total_chunks) := by
  unfold get_upload_status are_all_chunks_uploaded get_model_metadata
  rw [hmeta]

/-- C5 witness: the amended characterization evaluated at the
out-of-range scenario (count 1 = declared 1, hence complete). -/
theorem upload_status_complete_counts_only_witness :
    (get_upload_status gOutOfRange).is_complete = true :=
  upload_status_complete_counts_only gOutOfRange
    ⟨"model.onnx", 100, 1, 1, [5]⟩ (by decide)

/-! ## Claim C6 -/

/-- C6 counterexample: the `continue_initialization` endpoint forwards a
caller-supplied batch size of 0 (outside `[1, 200]`) straight to the
detector, which returns `Ok` — no `InvalidBatchSize` rejection happens on
this path. -/
theorem continue_initialization_accepts_zero_batch_cex :
    continue_initialization gMissing dStreaming (some 0) = (dStreaming, .ok (0, 3)) := by
  decide

/-- C6 (amended): only the `handle_continue_initialization` path
validates the batch size: with the spec-modelled `validate_batch_size`,
a caller-supplied batch size outside `[1, 200]` is rejected with
`InvalidBatchSize` before any chunk is processed, leaving storage and
model untouched.  The `continue_initialization` →
`continue_streaming_initialization` path performs no validation at all. -/
theorem handle_continue_rejects_invalid_batch (sha256 : List Nat → String)
    (parseOnnx : List Nat → Except String OnnxGraph)
    (storage : ModelStorage) (model : VeriChainModel) (b : Nat)
    (hini : storage.is_initialized = false) (hb : b < 1 ∨ 200 < b) :
    handle_continue_initialization sha256 parseOnnx storage model (some b) =
      (storage, model, .error "InvalidBatchSize") := by
  unfold handle_continue_initialization validate_batch_size
  have hb' : b = 0 ∨ 200 < b := by omega
  simp [hini, hb']

/-- C6 witness: batch size 201 is rejected by
`handle_continue_initialization` on a fresh storage. -/
theorem handle_continue_rejects_invalid_batch_witness :
    handle_continue_initialization constHash (fun _ => .ok ⟨[]⟩)
        ModelStorage.new VeriChainModel.new (some 201) =
      (ModelStorage.new, VeriChainModel.new, .error "InvalidBatchSize") :=
  handle_continue_rejects_invalid_batch constHash (fun _ => .ok ⟨[]⟩)
    ModelStorage.new VeriChainModel.new 201 (by decide) (Or.inr (by decide))

/-! ## Claim C7 -/

/-- C7: when the computed digest of the uploaded bytes differs from the
expected digest, `upload_model_chunk` returns the hash-verification
error and the canister state is EXACTLY as before: nothing is stored in
the chunk map and the recorded uploaded ordinals are unchanged
(store-or-reject).  Holds for every digest function, in particular for
the SHA-256 of the source. -/
theorem upload_chunk_rejects_integrity_mismatch (sha256 : List Nat → String)
    (g : CanisterState) (chunk_id : Nat) (chunk_data : List Nat) (chunk_hash : String)
    (hne : sha256 chunk_data ≠ chunk_hash) :
    upload_model_chunk sha256 g chunk_id chunk_data chunk_hash =
      (g, .error ("Chunk hash verification failed. Expected: " ++ chunk_hash ++
                  ", Got: " ++ sha256 chunk_data)) := by
  unfold upload_model_chunk
  simp [hne]

/-- C7 witness: a digest function returning "a" against an expected
digest "b". -/
theorem upload_chunk_rejects_integrity_mismatch_witness :
    upload_model_chunk (fun _ => "a") CanisterState.empty 0 [] "b" =
      (CanisterState.empty, .error ("Chunk hash verification failed. Expected: " ++ "b" ++
                                    ", Got: " ++ (fun _ : List Nat => "a") [])) :=
  upload_chunk_rejects_integrity_mismatch (fun _ => "a") CanisterState.empty 0 [] "b"
    (by decide)

/-! ## Claim C10 -/

/-- C10: `load_from_bytes` rejects any artifact whose byte length is
below 300000000 or above 400000000 with the size error, leaving the
model state exactly as before (no data, graph or hash stored, and
`model_loaded` not set); consequently a load can only succeed when the
length lies within that range.  Holds for every digest function and
every ONNX parser. -/
theorem load_from_bytes_rejects_out_of_range (sha256 : List Nat → String)
    (parseOnnx : List Nat → Except String OnnxGraph)
    (m : VeriChainModel) (bytes : List Nat)
    (hsize : bytes.length < 300000000 ∨ 400000000 < bytes.length) :
    VeriChainModel.load_from_bytes sha256 parseOnnx m bytes =
      (m, .error ("Invalid model size: " ++ toString (bytes.length / (1024 * 1024)) ++
                  "MB. Expected: " ++ toString (300000000 / (1024 * 1024)) ++
                  "MB - " ++ toString (400000000 / (1024 * 1024)) ++ "MB")) := by
  unfold VeriChainModel.load_from_bytes
  simp [hsize]

/-- C10 witness: the empty artifact (length 0, below the lower bound) is
rejected and the model is untouched. -/
theorem load_from_bytes_rejects_out_of_range_witness :
    VeriChainModel.load_from_bytes constHash (fun _ => .ok ⟨[]⟩) VeriChainModel.new [] =
      (VeriChainModel.new,
       .error ("Invalid model size: " ++ toString (([] : List Nat).length / (1024 * 1024)) ++
               "MB. Expected: " ++ toString (300000000 / (1024 * 1024)) ++
               "MB - " ++ toString (400000000 / (1024 * 1024)) ++ "MB")) :=
  load_from_bytes_rejects_out_of_range constHash (fun _ => .ok ⟨[]⟩)
    VeriChainModel.new [] (Or.inl (by decide))

/-! ## Claim C8 -/

/-- C8 counterexample: with three exactly equal scores (1/20 each) the
prediction label is `Real`, not `AIGenerated` as the claimed tie-break
order says (Rust `max_by` keeps the LAST of equal maxima and the array
is ordered AIGenerated, Deepfake, Real), and the reported confidence is
1/10 — the clamp `[0.1, 0.99]` — not the maximum class probability 1/20.
-/
theorem prediction_tie_break_and_confidence_cex :
    (PredictionResult.new (RawScores.new (1/20) (1/20) (1/20))).label = PredictionLabel.Real ∧
    (PredictionResult.new (RawScores.new (1/20) (1/20) (1/20))).confidence = 1/10 ∧
    ((1 : ℚ)/10 ≠ 1/20) ∧ PredictionLabel.Real ≠ PredictionLabel.AIGenerated := by
  refine ⟨?_, ?_, by norm_num, by decide⟩ <;>
    norm_num [PredictionResult.new, RawScores.new, RawScores.get_max_score_and_label, rustMaxBy]

/-- C8 (amended): the reported score is the maximum of the three class
scores and the label is the argmax, but ties are broken the OTHER way
round — preferring `Real`, then `Deepfake`, then `AIGenerated` (a class
wins only by being STRICTLY greater than the later ones) — and the
confidence is the maximum score additionally clamped into `[0.1, 0.99]`.
-/
theorem prediction_argmax_characterization (s : RawScores) :
    s.get_max_score_and_label =
      (max (max s.ai_generated s.deepfake) s.real,
       if s.deepfake < s.ai_generated ∧ s.real < s.ai_generated then PredictionLabel.AIGenerated
       else if s.real < s.deepfake then PredictionLabel.Deepfake
       else PredictionLabel.Real) ∧
    (PredictionResult.new s).confidence =
      min (max (max (max s.ai_generated s.deepfake) s.real) (1/10)) (99/100) ∧
    (PredictionResult.new s).label = s.get_max_score_and_label.2 := by
  have hmb : s.get_max_score_and_label =
      (max (max s.ai_generated s.deepfake) s.real,
       if s.deepfake < s.ai_generated ∧ s.real < s.ai_generated then PredictionLabel.AIGenerated
       else if s.real < s.deepfake then PredictionLabel.Deepfake
       else PredictionLabel.Real) := by
    unfold RawScores.get_max_score_and_label rustMaxBy
    dsimp only
    by_cases h1 : s.deepfake < s.ai_generated
    · by_cases h2 : s.real < s.ai_generated
      · rw [if_pos h1]
        dsimp only
        rw [if_pos h2, max_eq_left h1.le, max_eq_left h2.le, if_pos ⟨h1, h2⟩]
      · rw [if_pos h1]
        dsimp only
        rw [if_neg h2, max_eq_left h1.le, max_eq_right (not_lt.mp h2)]
        rw [if_neg (by tauto),
          if_neg (by intro h; exact absurd (h1.trans_le (not_lt.mp h2)) (not_lt.mpr h.le))]
    · by_cases h3 : s.real < s.deepfake
      · rw [if_neg h1]
        dsimp only
        rw [if_pos h3, max_eq_right (not_lt.mp h1), max_eq_left h3.le]
        rw [if_neg (by tauto), if_pos h3]
      · rw [if_neg h1]
        dsimp only
        rw [if_neg h3, max_eq_right (not_lt.mp h1), max_eq_right (not_lt.mp h3)]
        rw [if_neg (fun h => absurd h.1 h1), if_neg h3]
  refine ⟨hmb, ?_, rfl⟩
  show min (max s.get_max_score_and_label.1 (1/10)) (99/100) = _
  rw [hmb]

/-! ## Claim C9 -/

/-- Clamping `x.max(0.01).min(0.98)` always lands in `[0.01, 0.98]`. -/
theorem clamp_bounds (x : ℚ) :
    1/100 ≤ min (max x (1/100)) (49/50) ∧ min (max x (1/100)) (49/50) ≤ 49/50 :=
  ⟨le_min (le_max_right _ _) (by norm_num), min_le_right _ _⟩

/-- C9 counterexample: at the exponential weights `981, 18, 1` (produced
by the real exponential, up to rounding, at the logits
`(ln 981, ln 18, 0)`; `expW` is a positive monotone stand-in sampled at
the three embedded arguments), the three CLAMPED probabilities are
`0.98`, `0.018` and `0.01`, summing to `1.008` — off from 1 by `0.008`,
far beyond floating tolerance.  The claim that the reported class
probabilities sum to approximately 1 fails after clamping. -/
theorem apply_softmax_clamped_sum_cex :
    (apply_softmax expW (0, -3, -5)).real = 49/50 ∧
    (apply_softmax expW (0, -3, -5)).ai_generated = 9/500 ∧
    (apply_softmax expW (0, -3, -5)).deepfake = 1/100 ∧
    (apply_softmax expW (0, -3, -5)).real + (apply_softmax expW (0, -3, -5)).ai_generated +
      (apply_softmax expW (0, -3, -5)).deepfake = 126/125 ∧
    (1 : ℚ) + 1/1000 < 126/125 := by
  refine ⟨?_, ?_, ?_, ?_, by norm_num⟩ <;>
    norm_num [apply_softmax, softmax_parts, expW, RawScores.new]

/-- C9 (amended): the normalization subtracts the maximum logit before
applying the exponential (visible in `softmax_parts`), and every
reported class probability lies within the clamp bounds `[0.01, 0.98]`;
the UNCLAMPED softmax quotients do sum to exactly 1 whenever the
exponential weights have positive sum, but the reported (clamped)
probabilities need not sum to approximately 1. -/
theorem apply_softmax_bounds_and_preclamp_sum (expF : ℚ → ℚ) (logits : ℚ × ℚ × ℚ)
    (hsum : 0 < (softmax_parts expF logits).1 + (softmax_parts expF logits).2.1 +
      (softmax_parts expF logits).2.2) :
    (1/100 ≤ (apply_softmax expF logits).real ∧ (apply_softmax expF logits).real ≤ 49/50) ∧
    (1/100 ≤ (apply_softmax expF logits).ai_generated ∧
      (apply_softmax expF logits).ai_generated ≤ 49/50) ∧
    (1/100 ≤ (apply_softmax expF logits).deepfake ∧
      (apply_softmax expF logits).deepfake ≤ 49/50) ∧
    (softmax_parts expF logits).1 /
        ((softmax_parts expF logits).1 + (softmax_parts expF logits).2.1 +
          (softmax_parts expF logits).2.2) +
      (softmax_parts expF logits).2.1 /
        ((softmax_parts expF logits).1 + (softmax_parts expF logits).2.1 +
          (softmax_parts expF logits).2.2) +
      (softmax_parts expF logits).2.2 /
        ((softmax_parts expF logits).1 + (softmax_parts expF logits).2.1 +
          (softmax_parts expF logits).2.2) = 1 := by
  refine ⟨?_, ?_, ?_, ?_⟩
  · exact clamp_bounds _
  · exact clamp_bounds _
  · exact clamp_bounds _
  · rw [div_add_div_same, div_add_div_same]
    exact div_self (ne_of_gt hsum)

/-- C9 witness for the amended theorem: a constant positive exponential
at the zero logits. -/
theorem apply_softmax_bounds_and_preclamp_sum_witness :
    (1/100 ≤ (apply_softmax (fun _ => (1 : ℚ)) (0, 0, 0)).real ∧
      (apply_softmax (fun _ => (1 : ℚ)) (0, 0, 0)).real ≤ 49/50) ∧
    (1/100 ≤ (apply_softmax (fun _ => (1 : ℚ)) (0, 0, 0)).ai_generated ∧
      (apply_softmax (fun _ => (1 : ℚ)) (0, 0, 0)).ai_generated ≤ 49/50) ∧
    (1/100 ≤ (apply_softmax (fun _ => (1 : ℚ)) (0, 0, 0)).deepfake ∧
      (apply_softmax (fun _ => (1 : ℚ)) (0, 0, 0)).deepfake ≤ 49/50) ∧
    (softmax_parts (fun _ => (1 : ℚ)) (0, 0, 0)).1 /
        ((softmax_parts (fun _ => (1 : ℚ)) (0, 0, 0)).1 +
          (softmax_parts (fun _ => (1 : ℚ)) (0, 0, 0)).2.1 +
          (softmax_parts (fun _ => (1 : ℚ)) (0, 0, 0)).2.2) +
      (softmax_parts (fun _ => (1 : ℚ)) (0, 0, 0)).2.1 /
        ((softmax_parts (fun _ => (1 : ℚ)) (0, 0, 0)).1 +
          (softmax_parts (fun _ => (1 : ℚ)) (0, 0, 0)).2.1 +
          (softmax_parts (fun _ => (1 : ℚ)) (0, 0, 0)).2.2) +
      (softmax_parts (fun _ => (1 : ℚ)) (0, 0, 0)).2.2 /
        ((softmax_parts (fun _ => (1 : ℚ)) (0, 0, 0)).1 +
          (softmax_parts (fun _ => (1 : ℚ)) (0, 0, 0)).2.1 +
          (softmax_parts (fun _ => (1 : ℚ)) (0, 0, 0)).2.2) = 1 :=
  apply_softmax_bounds_and_preclamp_sum (fun _ => (1 : ℚ)) (0, 0, 0)
    (by norm_num [softmax_parts])

end VeriChain
